import Mathlib

/-!
Verification of the URL query-parameter state synchronizer of the i11
registry (`src/registry/hooks/use-query-state.ts`).

The embedding is shallow and executable:

* a `URLSearchParams` snapshot becomes an ordered association list
  `List (String × String)` with first-value-wins `get`, and `set` / `delete`
  following the `URLSearchParams` semantics the code relies on
  (`set` replaces the first occurrence, drops later duplicates, or appends);
* a zod schema becomes a total function `String → Option String`
  (`safeParse`: `some` on success with the possibly transformed string,
  `none` on failure);
* JavaScript string truthiness (`!!s`, `!s`) is modelled explicitly by
  `optTruthy` / the `value != ""` tests;
* the two React hooks are represented by the pure content of their
  post-render effects: given the snapshot, the configuration and the
  current mount flag, they return the new mount flag together with the
  list of snapshots passed to `router.replace` during the pass.
-/

set_option autoImplicit false

namespace I11Registry

/-- The `onParseError` field of `UseQueryStateOptions`:
behaviour on schema validation failure. -/
inductive OnParseError where
  | fallback
  | remove
deriving DecidableEq

/-- `UseQueryStateOptions` from `use-query-state.ts`: per-key configuration.
All fields are optional (`Partial` in the source); a zod schema is embedded
as its `safeParse` function `String → Option String`. -/
structure UseQueryStateOptions where
  defaultValue : Option String := none
  schema : Option (String → Option String) := none
  onParseError : Option OnParseError := none

/-- `Object.keys(options).length === 0`: a configuration object with no
fields present. -/
def UseQueryStateOptions.isEmpty (o : UseQueryStateOptions) : Bool :=
  o.defaultValue.isNone && o.schema.isNone && o.onParseError.isNone

/-- A `URLSearchParams` snapshot: an ordered list of key/value pairs. -/
abbrev SearchParams := List (String × String)

/-- `searchParams.get(key)`: first value for the key, `null` when absent. -/
def spGet : SearchParams → String → Option String
  | [], _ => none
  | p :: rest, k => if p.1 == k then some p.2 else spGet rest k

/-- `searchParams.has(key)`. -/
def spHas : SearchParams → String → Bool
  | [], _ => false
  | p :: rest, k => p.1 == k || spHas rest k

/-- `searchParams.delete(key)`: removes every pair with the key. -/
def spDelete : SearchParams → String → SearchParams
  | [], _ => []
  | p :: rest, k => if p.1 == k then spDelete rest k else p :: spDelete rest k

/-- `searchParams.set(key, value)`: replaces the value of the first pair with
the key and removes later duplicates, or appends when the key is absent. -/
def spSet : SearchParams → String → String → SearchParams
  | [], k, v => [(k, v)]
  | p :: rest, k, v =>
    if p.1 == k then (k, v) :: spDelete rest k else p :: spSet rest k v

/-- JavaScript truthiness of a `string | null | undefined` value:
true exactly for a present, non-empty string. -/
def optTruthy : Option String → Bool
  | some s => s != ""
  | none => false

/-- `shouldFallback` as computed in `updateQueryState`:
`onParseError === "fallback" && !!defaultValue` (with `"fallback"` as the
destructuring default for `onParseError`). -/
def shouldFallback (o : UseQueryStateOptions) : Bool :=
  (o.onParseError.getD .fallback == .fallback) && optTruthy o.defaultValue

/-- `shouldRemove` as computed in `updateQueryState`:
`onParseError === "remove" || !defaultValue`. -/
def shouldRemove (o : UseQueryStateOptions) : Bool :=
  (o.onParseError.getD .fallback == .remove) || !optTruthy o.defaultValue

/-- The part of `updateQueryState` after the `if (schema)` block, reached
when no schema is configured or when the schema branch falls through. -/
def updateQueryStateTail (key value : String) (searchParams : SearchParams)
    (opts : UseQueryStateOptions) : SearchParams :=
  if value == "" && shouldFallback opts then
    spSet searchParams key (opts.defaultValue.getD "")
  else if value == "" && shouldRemove opts then
    spDelete searchParams key
  else if value != "" then
    spSet searchParams key value
  else
    searchParams

/-- `updateQueryState` from `use-query-state.ts`: the per-key update policy.
The source mutates the given `URLSearchParams`; the embedding returns the
updated snapshot. -/
def updateQueryState (key value : String) (searchParams : SearchParams)
    (options : Option UseQueryStateOptions) : SearchParams :=
  match options with
  | none =>
    if value != "" then spSet searchParams key value
    else spDelete searchParams key
  | some opts =>
    match opts.schema with
    | some schema =>
      match schema value with
      | some data => spSet searchParams key data
      | none =>
        if shouldFallback opts then
          spSet searchParams key (opts.defaultValue.getD "")
        else if shouldRemove opts then
          spDelete searchParams key
        else
          updateQueryStateTail key value searchParams opts
    | none => updateQueryStateTail key value searchParams opts

/-- The value `updateQueryState` leaves at its own key, mirrored branch by
branch (`some w` for a `set`, `none` for a `delete`); the final branch of
the tail is a no-op in the source and is mapped to `none` here, which is
harmless because that branch is unreachable (`shouldFallback` and
`shouldRemove` can never both be false). -/
def updateOutcomeTail (value : String) (opts : UseQueryStateOptions) :
    Option String :=
  if value == "" && shouldFallback opts then some (opts.defaultValue.getD "")
  else if value == "" && shouldRemove opts then none
  else if value != "" then some value
  else none

/-- The value `updateQueryState key value _ options` leaves at `key`. -/
def updateOutcome (value : String) (options : Option UseQueryStateOptions) :
    Option String :=
  match options with
  | none => if value != "" then some value else none
  | some opts =>
    match opts.schema with
    | some schema =>
      match schema value with
      | some data => some data
      | none =>
        if shouldFallback opts then some (opts.defaultValue.getD "")
        else if shouldRemove opts then none
        else updateOutcomeTail value opts
    | none => updateOutcomeTail value opts

/-- `createSearchParamsWithMany`: copies the snapshot and applies
`updateQueryState` for each `(key, value)` pair in order, looking up the
per-key configuration via `options?.[key]`. -/
def createSearchParamsWithMany (updates : List (String × String))
    (searchParams : SearchParams)
    (options : String → Option UseQueryStateOptions) : SearchParams :=
  updates.foldl (fun acc u => updateQueryState u.1 u.2 acc (options u.1))
    searchParams

/-- `createSearchParams`: copies the snapshot and applies `updateQueryState`
for a single `(key, value)` pair. -/
def createSearchParams (update : String × String)
    (searchParams : SearchParams) (options : Option UseQueryStateOptions) :
    SearchParams :=
  updateQueryState update.1 update.2 searchParams options

/-- The loop body of `getSearchParamsUpdates` in `useQueryStrings`: the
correction (if any) the reconciler emits for one key. -/
def keyUpdate (searchParams : SearchParams) (isMounted : Bool)
    (key : String) (paramOptions : Option UseQueryStateOptions) :
    Option (String × String) :=
  match paramOptions with
  | none =>
    if spHas searchParams key && !optTruthy (spGet searchParams key) then
      some (key, "")
    else none
  | some opts =>
    if opts.isEmpty then
      if spHas searchParams key && !optTruthy (spGet searchParams key) then
        some (key, "")
      else none
    else
      if (!isMounted && optTruthy opts.defaultValue &&
            spGet searchParams key != opts.defaultValue) ||
          (!isMounted && !optTruthy opts.defaultValue && opts.schema.isSome) ||
          (spHas searchParams key && !optTruthy (spGet searchParams key)) ||
          (!spHas searchParams key && optTruthy opts.defaultValue) then
        some (key, (spGet searchParams key).getD "")
      else
        none

/-- `keyUpdate` re-expressed through the value of `spGet` alone
(`hasParam` becomes `paramValue.isSome`); used to transport reconciler
facts between snapshots that agree at the key. -/
def keyUpdateAux (paramValue : Option String) (isMounted : Bool)
    (key : String) (paramOptions : Option UseQueryStateOptions) :
    Option (String × String) :=
  match paramOptions with
  | none =>
    if paramValue.isSome && !optTruthy paramValue then some (key, "") else none
  | some opts =>
    if opts.isEmpty then
      if paramValue.isSome && !optTruthy paramValue then some (key, "")
      else none
    else
      if (!isMounted && optTruthy opts.defaultValue &&
            paramValue != opts.defaultValue) ||
          (!isMounted && !optTruthy opts.defaultValue && opts.schema.isSome) ||
          (paramValue.isSome && !optTruthy paramValue) ||
          (!paramValue.isSome && optTruthy opts.defaultValue) then
        some (key, paramValue.getD "")
      else
        none

/-- `getSearchParamsUpdates` from `useQueryStrings`: the corrections the
reconciler emits in one pass over the tracked keys. -/
def getSearchParamsUpdates (keys : List String)
    (searchParams : SearchParams)
    (options : String → Option UseQueryStateOptions) (isMounted : Bool) :
    List (String × String) :=
  keys.filterMap (fun key => keyUpdate searchParams isMounted key (options key))

/-- `updateSearchParams` from `useQueryStrings`: the list of snapshots
handed to `router.replace` for a batch of updates (empty batch: no call,
otherwise exactly one call carrying `createSearchParamsWithMany`). -/
def updateSearchParams (searchParams : SearchParams)
    (options : String → Option UseQueryStateOptions)
    (updates : List (String × String)) : List SearchParams :=
  if updates.length == 0 then []
  else [createSearchParamsWithMany updates searchParams options]

/-- The post-render effect of `useQueryStrings`: computes the corrections
with the incoming mount flag, unconditionally flips the flag to `true`, and
issues one batched replace when there is at least one correction. Returns
(new mount flag, replace calls issued). -/
def useQueryStringsEffect (keys : List String)
    (searchParams : SearchParams)
    (options : String → Option UseQueryStateOptions) (isMounted : Bool) :
    Bool × List SearchParams :=
  let updates := getSearchParamsUpdates keys searchParams options isMounted
  (true,
    if updates.length > 0 then updateSearchParams searchParams options updates
    else [])

/-- The post-render effect of `useQueryString` (single key). With a missing
or empty configuration it may issue a replace but never touches the mount
flag; otherwise it flips the flag to `true` only inside the correction
branch. Returns (new mount flag, replace calls issued). -/
def useQueryStringEffect (key : String) (searchParams : SearchParams)
    (options : Option UseQueryStateOptions) (isMounted : Bool) :
    Bool × List SearchParams :=
  match options with
  | none =>
    if spHas searchParams key && !optTruthy (spGet searchParams key) then
      (isMounted, [createSearchParams (key, "") searchParams none])
    else
      (isMounted, [])
  | some opts =>
    if opts.isEmpty then
      if spHas searchParams key && !optTruthy (spGet searchParams key) then
        (isMounted, [createSearchParams (key, "") searchParams (some opts)])
      else
        (isMounted, [])
    else
      if (!isMounted && optTruthy opts.defaultValue &&
            spGet searchParams key != opts.defaultValue) ||
          (!isMounted && !optTruthy opts.defaultValue && opts.schema.isSome) ||
          (spHas searchParams key && !optTruthy (spGet searchParams key)) ||
          (!spHas searchParams key && optTruthy opts.defaultValue) then
        (true,
          [createSearchParams (key, (spGet searchParams key).getD "")
            searchParams (some opts)])
      else
        (isMounted, [])

/-- One Reconciler + Params Builder application: the snapshot obtained by
feeding the corrections of `getSearchParamsUpdates` into
`createSearchParamsWithMany` (an empty correction list leaves the snapshot
untouched, matching the effect issuing no replace). -/
def reconcilePass (keys : List String)
    (options : String → Option UseQueryStateOptions) (isMounted : Bool)
    (searchParams : SearchParams) : SearchParams :=
  createSearchParamsWithMany
    (getSearchParamsUpdates keys searchParams options isMounted)
    searchParams options

/-- A configuration object that is present and has at least one field:
the single-key effect updates the mount flag only for such configurations. -/
def optionsActive : Option UseQueryStateOptions → Bool
  | none => false
  | some opts => !opts.isEmpty

/-- Side conditions under which one reconciliation pass reaches a fixed
point: no key combines a truthy `defaultValue` with `onParseError = remove`
(that combination deletes the key and then re-triggers the missing-default
rule forever), and no configured schema succeeds with the empty string
(an empty success output re-triggers the present-but-empty rule). -/
def goodConfig : Option UseQueryStateOptions → Prop
  | none => True
  | some opts =>
    (¬(optTruthy opts.defaultValue = true ∧
        opts.onParseError.getD .fallback = .remove)) ∧
    (∀ S v w, opts.schema = some S → S v = some w → w ≠ "")

/-- Sample schema rejecting every input. -/
def schemaRejectAll : String → Option String := fun _ => none

/-- Sample schema accepting every input unchanged. -/
def schemaAccept : String → Option String := fun s => some s

/-- Sample transforming schema: accepts `"ok"` with output `"ok!"`. -/
def schemaBang : String → Option String :=
  fun s => if s == "ok" then some (s ++ "!") else none

/-- Sample schema mapping `"x"` to the empty string and rejecting the rest. -/
def schemaEmptyOut : String → Option String :=
  fun s => if s == "x" then some "" else none

/-- Sample configuration: default value `"a"`. -/
def optsDefaultA : UseQueryStateOptions := { defaultValue := some "a" }

/-- Sample configuration: default value `"1"`. -/
def optsDefaultOne : UseQueryStateOptions := { defaultValue := some "1" }

/-- Sample configuration: default `"1"` with `onParseError = remove`. -/
def optsD1Remove : UseQueryStateOptions :=
  { defaultValue := some "1", onParseError := some .remove }

/-- Sample configuration: default `"d"` with an always-failing schema. -/
def optsSchemaReject : UseQueryStateOptions :=
  { defaultValue := some "d", schema := some schemaRejectAll }

/-- Sample configuration: default `"d"`, always-failing schema, and
`onParseError = remove`. -/
def optsSchemaRejectRemove : UseQueryStateOptions :=
  { defaultValue := some "d", schema := some schemaRejectAll,
    onParseError := some .remove }

/-- Sample configuration: default `"z"`, transforming schema, and
`onParseError = remove`. -/
def optsSchemaBang : UseQueryStateOptions :=
  { defaultValue := some "z", schema := some schemaBang,
    onParseError := some .remove }

/-- Sample configuration whose only field is an empty-string default. -/
def optsEmptyDefault : UseQueryStateOptions := { defaultValue := some "" }

/-- Sample configuration: only the empty-output schema. -/
def optsEmptyOut : UseQueryStateOptions := { schema := some schemaEmptyOut }

/-- Per-key options: none for every key. -/
def optsFunNone : String → Option UseQueryStateOptions := fun _ => none

/-- Per-key options: every key gets `optsD1Remove`. -/
def optsFunD1Remove : String → Option UseQueryStateOptions :=
  fun _ => some optsD1Remove

/-- Per-key options: every key gets `optsEmptyOut`. -/
def optsFunEmptyOut : String → Option UseQueryStateOptions :=
  fun _ => some optsEmptyOut

/-- Per-key options: every key gets `optsDefaultOne`. -/
def optsFunDefaultOne : String → Option UseQueryStateOptions :=
  fun _ => some optsDefaultOne

/-! ### Basic snapshot lemmas -/

theorem spGet_spSet_self (sp : SearchParams) (k v : String) :
    spGet (spSet sp k v) k = some v := by
  induction sp with
  | nil => simp [spSet, spGet]
  | cons p rest ih =>
    by_cases h : p.1 = k
    · simp [spSet, spGet, h]
    · simp [spSet, spGet, h, ih]

theorem spGet_spDelete_self (sp : SearchParams) (k : String) :
    spGet (spDelete sp k) k = none := by
  induction sp with
  | nil => simp [spDelete, spGet]
  | cons p rest ih =>
    by_cases h : p.1 = k
    · simp [spDelete, h, ih]
    · simp [spDelete, spGet, h, ih]

theorem spGet_spDelete_ne (sp : SearchParams) (k k1 : String) (h : k1 ≠ k) :
    spGet (spDelete sp k) k1 = spGet sp k1 := by
  have hk1 : ¬(k = k1) := fun hh => h hh.symm
  induction sp with
  | nil => rfl
  | cons p rest ih =>
    by_cases hp : p.1 = k
    · simp [spDelete, spGet, hp, hk1, ih]
    · by_cases hp1 : p.1 = k1
      · simp [spDelete, spGet, hp, hp1, h]
      · simp [spDelete, spGet, hp, hp1, ih]

theorem spGet_spSet_ne (sp : SearchParams) (k v k1 : String) (h : k1 ≠ k) :
    spGet (spSet sp k v) k1 = spGet sp k1 := by
  have hk1 : ¬(k = k1) := fun hh => h hh.symm
  induction sp with
  | nil => simp [spSet, spGet, hk1]
  | cons p rest ih =>
    by_cases hp : p.1 = k
    · simp [spSet, spGet, hp, hk1, spGet_spDelete_ne rest k k1 h]
    · by_cases hp1 : p.1 = k1
      · simp [spSet, spGet, hp, hp1, h]
      · simp [spSet, spGet, hp, hp1, ih]

theorem spHas_eq_isSome (sp : SearchParams) (k : String) :
    spHas sp k = (spGet sp k).isSome := by
  induction sp with
  | nil => rfl
  | cons p rest ih =>
    by_cases h : p.1 = k
    · simp [spHas, spGet, h]
    · simp [spHas, spGet, h, ih]

/-! ### The fallback/remove dichotomy -/

theorem shouldRemove_of_not_shouldFallback (o : UseQueryStateOptions)
    (h : shouldFallback o = false) : shouldRemove o = true := by
  unfold shouldFallback at h
  unfold shouldRemove
  cases hpe : o.onParseError.getD .fallback <;>
    cases hd : optTruthy o.defaultValue <;> simp_all

theorem shouldFallback_of_truthy (opts : UseQueryStateOptions)
    (hg : ¬(optTruthy opts.defaultValue = true ∧
      opts.onParseError.getD .fallback = .remove))
    (ht : optTruthy opts.defaultValue = true) :
    shouldFallback opts = true := by
  unfold shouldFallback
  cases hpe : opts.onParseError.getD .fallback
  · simp [ht]
  · exact absurd ⟨ht, hpe⟩ hg

theorem truthy_getD_ne_empty (d : Option String)
    (h : optTruthy d = true) : d.getD "" ≠ "" := by
  cases d with
  | none => simp [optTruthy] at h
  | some s => simpa [optTruthy] using h

/-! ### Shape and outcome of the update policy -/

theorem updateQueryStateTail_shape (k v : String) (sp : SearchParams)
    (opts : UseQueryStateOptions) :
    (∃ w, updateQueryStateTail k v sp opts = spSet sp k w) ∨
      updateQueryStateTail k v sp opts = spDelete sp k ∨
      updateQueryStateTail k v sp opts = sp := by
  by_cases hv : v = ""
  · by_cases hf : shouldFallback opts
    · exact Or.inl ⟨opts.defaultValue.getD "", by
        simp [updateQueryStateTail, hv, hf]⟩
    · have hr := shouldRemove_of_not_shouldFallback opts
        (Bool.eq_false_iff.mpr hf)
      exact Or.inr (Or.inl (by simp [updateQueryStateTail, hv, hf, hr]))
  · exact Or.inl ⟨v, by simp [updateQueryStateTail, hv]⟩

theorem updateQueryState_tail_eq (k v : String) (sp : SearchParams)
    (opts : UseQueryStateOptions) (hs : opts.schema = none) :
    updateQueryState k v sp (some opts) = updateQueryStateTail k v sp opts := by
  simp [updateQueryState, hs]

theorem updateQueryState_schema_ok (k v : String) (sp : SearchParams)
    (opts : UseQueryStateOptions) (S : String → Option String) (data : String)
    (hs : opts.schema = some S) (hd : S v = some data) :
    updateQueryState k v sp (some opts) = spSet sp k data := by
  simp [updateQueryState, hs, hd]

theorem updateQueryState_schema_fail (k v : String) (sp : SearchParams)
    (opts : UseQueryStateOptions) (S : String → Option String)
    (hs : opts.schema = some S) (hd : S v = none) :
    updateQueryState k v sp (some opts) =
      (if shouldFallback opts then spSet sp k (opts.defaultValue.getD "")
       else if shouldRemove opts then spDelete sp k
       else updateQueryStateTail k v sp opts) := by
  simp [updateQueryState, hs, hd]

theorem updateQueryState_shape (k v : String) (sp : SearchParams)
    (o : Option UseQueryStateOptions) :
    (∃ w, updateQueryState k v sp o = spSet sp k w) ∨
      updateQueryState k v sp o = spDelete sp k ∨
      updateQueryState k v sp o = sp := by
  cases o with
  | none =>
    by_cases hv : v = ""
    · exact Or.inr (Or.inl (by simp [updateQueryState, hv]))
    · exact Or.inl ⟨v, by simp [updateQueryState, hv]⟩
  | some opts =>
    cases hs : opts.schema with
    | none =>
      rw [updateQueryState_tail_eq k v sp opts hs]
      exact updateQueryStateTail_shape k v sp opts
    | some S =>
      cases hd : S v with
      | some data =>
        exact Or.inl ⟨data, updateQueryState_schema_ok k v sp opts S data hs hd⟩
      | none =>
        rw [updateQueryState_schema_fail k v sp opts S hs hd]
        by_cases hf : shouldFallback opts
        · exact Or.inl ⟨opts.defaultValue.getD "", by simp [hf]⟩
        · have hr := shouldRemove_of_not_shouldFallback opts
            (Bool.eq_false_iff.mpr hf)
          rw [if_neg (by simp [hf]), if_pos hr]
          exact Or.inr (Or.inl rfl)

theorem spGet_updateQueryStateTail_self (k v : String) (sp : SearchParams)
    (opts : UseQueryStateOptions) :
    spGet (updateQueryStateTail k v sp opts) k = updateOutcomeTail v opts := by
  by_cases hv : v = ""
  · by_cases hf : shouldFallback opts
    · simp [updateQueryStateTail, updateOutcomeTail, hv, hf, spGet_spSet_self]
    · have hr := shouldRemove_of_not_shouldFallback opts
        (Bool.eq_false_iff.mpr hf)
      simp [updateQueryStateTail, updateOutcomeTail, hv, hf, hr,
        spGet_spDelete_self]
  · simp [updateQueryStateTail, updateOutcomeTail, hv, spGet_spSet_self]

theorem spGet_updateQueryState_self (k v : String) (sp : SearchParams)
    (o : Option UseQueryStateOptions) :
    spGet (updateQueryState k v sp o) k = updateOutcome v o := by
  cases o with
  | none =>
    by_cases hv : v = "" <;>
      simp [updateQueryState, updateOutcome, hv, spGet_spSet_self,
        spGet_spDelete_self]
  | some opts =>
    cases hs : opts.schema with
    | none =>
      rw [updateQueryState_tail_eq k v sp opts hs]
      have ho : updateOutcome v (some opts) = updateOutcomeTail v opts := by
        simp [updateOutcome, hs]
      rw [ho]
      exact spGet_updateQueryStateTail_self k v sp opts
    | some S =>
      cases hd : S v with
      | some data =>
        rw [updateQueryState_schema_ok k v sp opts S data hs hd]
        have ho : updateOutcome v (some opts) = some data := by
          simp [updateOutcome, hs, hd]
        rw [ho]
        exact spGet_spSet_self sp k data
      | none =>
        rw [updateQueryState_schema_fail k v sp opts S hs hd]
        have ho : updateOutcome v (some opts) =
            (if shouldFallback opts then some (opts.defaultValue.getD "")
             else if shouldRemove opts then none
             else updateOutcomeTail v opts) := by
          simp [updateOutcome, hs, hd]
        rw [ho]
        by_cases hf : shouldFallback opts
        · simp [hf, spGet_spSet_self]
        · have hr := shouldRemove_of_not_shouldFallback opts
            (Bool.eq_false_iff.mpr hf)
          simp [hf, hr, spGet_spDelete_self]

theorem spGet_updateQueryState_ne (k v k1 : String) (sp : SearchParams)
    (o : Option UseQueryStateOptions) (h : k1 ≠ k) :
    spGet (updateQueryState k v sp o) k1 = spGet sp k1 := by
  rcases updateQueryState_shape k v sp o with ⟨w, hw⟩ | hw | hw <;> rw [hw]
  · exact spGet_spSet_ne sp k w k1 h
  · exact spGet_spDelete_ne sp k k1 h

/-! ### Batch application lemmas -/

theorem createSearchParamsWithMany_cons (u : String × String)
    (rest : List (String × String)) (sp : SearchParams)
    (options : String → Option UseQueryStateOptions) :
    createSearchParamsWithMany (u :: rest) sp options =
      createSearchParamsWithMany rest
        (updateQueryState u.1 u.2 sp (options u.1)) options := rfl

theorem spGet_batch_frame (updates : List (String × String))
    (sp : SearchParams) (options : String → Option UseQueryStateOptions)
    (k : String) (h : ∀ p ∈ updates, p.1 ≠ k) :
    spGet (createSearchParamsWithMany updates sp options) k = spGet sp k := by
  induction updates generalizing sp with
  | nil => rfl
  | cons u rest ih =>
    rw [createSearchParamsWithMany_cons,
      ih _ (fun p hp => h p (List.mem_cons_of_mem u hp))]
    exact spGet_updateQueryState_ne u.1 u.2 k sp (options u.1)
      (Ne.symm (h u (List.mem_cons_self u rest)))

theorem spGet_batch_last (l1 l2 : List (String × String)) (k v : String)
    (sp : SearchParams) (options : String → Option UseQueryStateOptions)
    (h2 : ∀ p ∈ l2, p.1 ≠ k) :
    spGet (createSearchParamsWithMany (l1 ++ (k, v) :: l2) sp options) k =
      updateOutcome v (options k) := by
  have e : createSearchParamsWithMany (l1 ++ (k, v) :: l2) sp options =
      createSearchParamsWithMany l2
        (updateQueryState k v (createSearchParamsWithMany l1 sp options)
          (options k)) options := by
    unfold createSearchParamsWithMany
    rw [List.foldl_append, List.foldl_cons]
  rw [e, spGet_batch_frame l2 _ options k h2, spGet_updateQueryState_self]

/-! ### Reconciler per-key lemmas -/

theorem keyUpdate_eq_aux (sp : SearchParams) (m : Bool) (k : String)
    (o : Option UseQueryStateOptions) :
    keyUpdate sp m k o = keyUpdateAux (spGet sp k) m k o := by
  unfold keyUpdate keyUpdateAux
  rw [spHas_eq_isSome]

theorem bite_shape {α : Type} (c : Bool) (a b : α) :
    (if c then a else b) = a ∨ (if c then a else b) = b := by
  cases c
  · exact Or.inr rfl
  · exact Or.inl rfl

theorem keyUpdate_shape (sp : SearchParams) (m : Bool) (k : String)
    (o : Option UseQueryStateOptions) :
    keyUpdate sp m k o = none ∨ ∃ v, keyUpdate sp m k o = some (k, v) := by
  cases o with
  | none =>
    simp only [keyUpdate]
    rcases bite_shape (spHas sp k && !optTruthy (spGet sp k))
        (some (k, "")) (none : Option (String × String)) with h | h
    · exact Or.inr ⟨"", h⟩
    · exact Or.inl h
  | some opts =>
    simp only [keyUpdate]
    by_cases he : opts.isEmpty = true
    · rw [if_pos he]
      rcases bite_shape (spHas sp k && !optTruthy (spGet sp k))
          (some (k, "")) (none : Option (String × String)) with h | h
      · exact Or.inr ⟨"", h⟩
      · exact Or.inl h
    · rw [if_neg he]
      rcases bite_shape
          ((!m && optTruthy opts.defaultValue &&
              spGet sp k != opts.defaultValue) ||
            (!m && !optTruthy opts.defaultValue && opts.schema.isSome) ||
            (spHas sp k && !optTruthy (spGet sp k)) ||
            (!spHas sp k && optTruthy opts.defaultValue))
          (some (k, (spGet sp k).getD ""))
          (none : Option (String × String)) with h | h
      · exact Or.inr ⟨(spGet sp k).getD "", h⟩
      · exact Or.inl h

theorem keyUpdate_key (sp : SearchParams) (m : Bool) (k : String)
    (o : Option UseQueryStateOptions) (p : String × String)
    (h : keyUpdate sp m k o = some p) : p.1 = k := by
  rcases keyUpdate_shape sp m k o with h0 | ⟨v, h0⟩ <;> rw [h0] at h
  · cases h
  · cases h
    rfl

theorem mem_updates (keys : List String) (sp : SearchParams)
    (options : String → Option UseQueryStateOptions) (m : Bool)
    (k v : String) (hk : k ∈ keys)
    (h : keyUpdate sp m k (options k) = some (k, v)) :
    (k, v) ∈ getSearchParamsUpdates keys sp options m :=
  List.mem_filterMap.mpr ⟨k, hk, h⟩

theorem mem_updates_inv (keys : List String) (sp : SearchParams)
    (options : String → Option UseQueryStateOptions) (m : Bool)
    (p : String × String)
    (hp : p ∈ getSearchParamsUpdates keys sp options m) :
    p.1 ∈ keys ∧ keyUpdate sp m p.1 (options p.1) = some p := by
  obtain ⟨a, ha, hfa⟩ := List.mem_filterMap.mp hp
  have hk : p.1 = a := keyUpdate_key sp m a (options a) p hfa
  rw [hk]
  exact ⟨ha, hfa⟩

theorem updates_no_key (keys : List String) (sp : SearchParams)
    (options : String → Option UseQueryStateOptions) (m : Bool) (k : String)
    (h : keyUpdate sp m k (options k) = none) :
    ∀ p ∈ getSearchParamsUpdates keys sp options m, p.1 ≠ k := by
  intro p hp hpk
  obtain ⟨-, hsome⟩ := mem_updates_inv keys sp options m p hp
  rw [hpk, h] at hsome
  cases hsome

theorem updates_nil_of_forall (keys : List String) (sp : SearchParams)
    (options : String → Option UseQueryStateOptions) (m : Bool)
    (h : ∀ k ∈ keys, keyUpdate sp m k (options k) = none) :
    getSearchParamsUpdates keys sp options m = [] := by
  induction keys with
  | nil => rfl
  | cons a rest ih =>
    simp only [getSearchParamsUpdates, List.filterMap_cons,
      h a (List.mem_cons_self a rest)]
    simpa [getSearchParamsUpdates] using
      ih (fun k hk => h k (List.mem_cons_of_mem a hk))

theorem updates_decompose (keys : List String) (sp : SearchParams)
    (options : String → Option UseQueryStateOptions) (m : Bool)
    (k v : String) (hnd : keys.Nodup) (hk : k ∈ keys)
    (h : keyUpdate sp m k (options k) = some (k, v)) :
    ∃ l1 l2, getSearchParamsUpdates keys sp options m = l1 ++ (k, v) :: l2 ∧
      ∀ p ∈ l2, p.1 ≠ k := by
  induction keys with
  | nil => cases hk
  | cons a rest ih =>
    rw [List.nodup_cons] at hnd
    by_cases ha : a = k
    · have hfa : keyUpdate sp m a (options a) = some (k, v) := by
        rw [ha]; exact h
      refine ⟨[], getSearchParamsUpdates rest sp options m, ?_, ?_⟩
      · simp only [getSearchParamsUpdates, List.filterMap_cons, hfa,
          List.nil_append]
      · intro p hp hpk
        obtain ⟨hmem, -⟩ := mem_updates_inv rest sp options m p hp
        rw [hpk, ← ha] at hmem
        exact hnd.1 hmem
    · have hk1 : k ∈ rest := by
        cases hk with
        | head => exact absurd rfl ha
        | tail _ hmem => exact hmem
      obtain ⟨l1, l2, he, hl2⟩ := ih hnd.2 hk1
      cases hfa : keyUpdate sp m a (options a) with
      | none =>
        refine ⟨l1, l2, ?_, hl2⟩
        simp only [getSearchParamsUpdates, List.filterMap_cons, hfa]
        simpa [getSearchParamsUpdates] using he
      | some q =>
        refine ⟨q :: l1, l2, ?_, hl2⟩
        simp only [getSearchParamsUpdates, List.filterMap_cons, hfa,
          List.cons_append]
        simpa [getSearchParamsUpdates] using he

theorem keyUpdateAux_mount_mono (g : Option String) (k : String)
    (o : Option UseQueryStateOptions)
    (h : keyUpdateAux g false k o = none) : keyUpdateAux g true k o = none := by
  cases o with
  | none => simp only [keyUpdateAux] at h ⊢; exact h
  | some opts =>
    simp only [keyUpdateAux] at h ⊢
    by_cases he : opts.isEmpty
    · rw [if_pos he] at h ⊢
      exact h
    · rw [if_neg he] at h ⊢
      split at h
      · cases h
      · rename_i hc
        split
        · rename_i hc2
          exfalso
          apply hc
          simp only [Bool.not_true, Bool.false_and, Bool.false_or] at hc2
          simp only [Bool.or_eq_true] at hc2 ⊢
          rcases hc2 with h3 | h4
          · exact Or.inl (Or.inr h3)
          · exact Or.inr h4
        · rfl

theorem keyUpdate_mount_mono (sp : SearchParams) (k : String)
    (o : Option UseQueryStateOptions)
    (h : keyUpdate sp false k o = none) : keyUpdate sp true k o = none := by
  rw [keyUpdate_eq_aux] at h ⊢
  exact keyUpdateAux_mount_mono (spGet sp k) k o h

/-! ### Outcome facts under the fixed-point side conditions -/

theorem truthy_of_shouldFallback (opts : UseQueryStateOptions)
    (hf : shouldFallback opts = true) :
    optTruthy opts.defaultValue = true := by
  simp only [shouldFallback, Bool.and_eq_true] at hf
  exact hf.2

theorem not_truthy_of_not_shouldFallback (opts : UseQueryStateOptions)
    (hg : ¬(optTruthy opts.defaultValue = true ∧
      opts.onParseError.getD .fallback = .remove))
    (hf : shouldFallback opts = false) :
    optTruthy opts.defaultValue = false := by
  by_cases ht : optTruthy opts.defaultValue = true
  · exact absurd (shouldFallback_of_truthy opts hg ht) (by simp [hf])
  · exact Bool.eq_false_iff.mpr ht

theorem updateOutcomeTail_ne_empty (v : String)
    (opts : UseQueryStateOptions) (w : String)
    (h : updateOutcomeTail v opts = some w) : w ≠ "" := by
  by_cases hv : v = ""
  · by_cases hf : shouldFallback opts = true
    · rw [updateOutcomeTail, if_pos (by simp [hv, hf])] at h
      injection h with h
      rw [← h]
      exact truthy_getD_ne_empty opts.defaultValue
        (truthy_of_shouldFallback opts hf)
    · have hr := shouldRemove_of_not_shouldFallback opts
        (Bool.eq_false_iff.mpr hf)
      rw [updateOutcomeTail, if_neg (by simp [hf]),
        if_pos (by simp [hv, hr])] at h
      cases h
  · rw [updateOutcomeTail, if_neg (by simp [hv]), if_neg (by simp [hv]),
      if_pos (by simp [hv])] at h
    injection h with h
    rw [← h]
    exact hv

theorem updateOutcomeTail_none_sf_false (v : String)
    (opts : UseQueryStateOptions)
    (h : updateOutcomeTail v opts = none) : shouldFallback opts = false := by
  by_cases hf : shouldFallback opts = true
  · by_cases hv : v = ""
    · rw [updateOutcomeTail, if_pos (by simp [hv, hf])] at h
      cases h
    · rw [updateOutcomeTail, if_neg (by simp [hv]), if_neg (by simp [hv]),
        if_pos (by simp [hv])] at h
      cases h
  · exact Bool.eq_false_iff.mpr hf

theorem updateOutcome_schema_none (v : String)
    (opts : UseQueryStateOptions) (hs : opts.schema = none) :
    updateOutcome v (some opts) = updateOutcomeTail v opts := by
  simp [updateOutcome, hs]

theorem updateOutcome_schema_fail (v : String)
    (opts : UseQueryStateOptions) (S : String → Option String)
    (hs : opts.schema = some S) (hd : S v = none) :
    updateOutcome v (some opts) =
      (if shouldFallback opts then some (opts.defaultValue.getD "")
       else if shouldRemove opts then none
       else updateOutcomeTail v opts) := by
  simp [updateOutcome, hs, hd]

theorem updateOutcome_ne_empty (v : String)
    (o : Option UseQueryStateOptions) (hg : goodConfig o) (w : String)
    (h : updateOutcome v o = some w) : w ≠ "" := by
  cases o with
  | none =>
    by_cases hv : v = ""
    · rw [updateOutcome, if_neg (by simp [hv])] at h
      cases h
    · rw [updateOutcome, if_pos (by simp [hv])] at h
      injection h with h
      rw [← h]
      exact hv
  | some opts =>
    obtain ⟨hg1, hg2⟩ := hg
    cases hs : opts.schema with
    | none =>
      rw [updateOutcome_schema_none v opts hs] at h
      exact updateOutcomeTail_ne_empty v opts w h
    | some S =>
      cases hd : S v with
      | some data =>
        have hrw : updateOutcome v (some opts) = some data := by
          simp [updateOutcome, hs, hd]
        rw [hrw] at h
        injection h with h
        rw [← h]
        exact hg2 S v data hs hd
      | none =>
        rw [updateOutcome_schema_fail v opts S hs hd] at h
        by_cases hf : shouldFallback opts = true
        · rw [if_pos hf] at h
          injection h with h
          rw [← h]
          exact truthy_getD_ne_empty opts.defaultValue
            (truthy_of_shouldFallback opts hf)
        · have hr := shouldRemove_of_not_shouldFallback opts
            (Bool.eq_false_iff.mpr hf)
          rw [if_neg hf, if_pos hr] at h
          cases h

theorem updateOutcome_none_not_truthy (v : String)
    (opts : UseQueryStateOptions) (hg : goodConfig (some opts))
    (h : updateOutcome v (some opts) = none) :
    optTruthy opts.defaultValue = false := by
  obtain ⟨hg1, -⟩ := hg
  cases hs : opts.schema with
  | none =>
    rw [updateOutcome_schema_none v opts hs] at h
    exact not_truthy_of_not_shouldFallback opts hg1
      (updateOutcomeTail_none_sf_false v opts h)
  | some S =>
    cases hd : S v with
    | some data =>
      have hrw : updateOutcome v (some opts) = some data := by
        simp [updateOutcome, hs, hd]
      rw [hrw] at h
      cases h
    | none =>
      rw [updateOutcome_schema_fail v opts S hs hd] at h
      by_cases hf : shouldFallback opts = true
      · rw [if_pos hf] at h
        cases h
      · exact not_truthy_of_not_shouldFallback opts hg1
          (Bool.eq_false_iff.mpr hf)

/-! ### The second reconciliation pass is empty -/

theorem keyUpdateAux_some_nonempty (w : String) (hw : w ≠ "") (k : String)
    (o : Option UseQueryStateOptions) :
    keyUpdateAux (some w) true k o = none := by
  have ht : optTruthy (some w) = true := by simp [optTruthy, hw]
  cases o with
  | none => simp [keyUpdateAux, ht]
  | some opts =>
    by_cases he : opts.isEmpty = true
    · simp [keyUpdateAux, he, ht]
    · simp [keyUpdateAux, he, ht]

theorem keyUpdateAux_outcome_none (v k : String)
    (o : Option UseQueryStateOptions) (hg : goodConfig o) :
    keyUpdateAux (updateOutcome v o) true k o = none := by
  cases hgo : updateOutcome v o with
  | some w =>
    exact keyUpdateAux_some_nonempty w (updateOutcome_ne_empty v o hg w hgo)
      k o
  | none =>
    cases o with
    | none => simp [keyUpdateAux]
    | some opts =>
      by_cases he : opts.isEmpty = true
      · simp [keyUpdateAux, he]
      · have hdv : optTruthy opts.defaultValue = false :=
          updateOutcome_none_not_truthy v opts hg hgo
        simp [keyUpdateAux, he, hdv]

theorem reconcile_second_none (keys : List String) (sp : SearchParams)
    (options : String → Option UseQueryStateOptions)
    (hnd : keys.Nodup) (hg : ∀ k ∈ keys, goodConfig (options k))
    (k : String) (hk : k ∈ keys) :
    keyUpdate (reconcilePass keys options false sp) true k (options k) =
      none := by
  cases hu : keyUpdate sp false k (options k) with
  | none =>
    have hframe : ∀ p ∈ getSearchParamsUpdates keys sp options false,
        p.1 ≠ k := updates_no_key keys sp options false k hu
    have hget : spGet (reconcilePass keys options false sp) k = spGet sp k :=
      spGet_batch_frame _ sp options k hframe
    rw [keyUpdate_eq_aux, hget, ← keyUpdate_eq_aux]
    exact keyUpdate_mount_mono sp k (options k) hu
  | some p =>
    obtain ⟨a, v⟩ := p
    have ha : a = k := keyUpdate_key sp false k (options k) (a, v) hu
    rw [ha] at hu
    obtain ⟨l1, l2, he, hl2⟩ :=
      updates_decompose keys sp options false k v hnd hk hu
    have hget : spGet (reconcilePass keys options false sp) k =
        updateOutcome v (options k) := by
      unfold reconcilePass
      rw [he]
      exact spGet_batch_last l1 l2 k v sp options hl2
    rw [keyUpdate_eq_aux, hget]
    exact keyUpdateAux_outcome_none v k (options k) (hg k hk)

theorem reconcile_second_updates_nil (keys : List String)
    (sp : SearchParams) (options : String → Option UseQueryStateOptions)
    (hnd : keys.Nodup) (hg : ∀ k ∈ keys, goodConfig (options k)) :
    getSearchParamsUpdates keys (reconcilePass keys options false sp) options
      true = [] :=
  updates_nil_of_forall keys _ options true
    (fun k hk => reconcile_second_none keys sp options hnd hg k hk)

/-! ### Strengthened shape: the update policy never falls through -/

theorem updateQueryStateTail_shape2 (k v : String) (sp : SearchParams)
    (opts : UseQueryStateOptions) :
    (∃ w, updateQueryStateTail k v sp opts = spSet sp k w) ∨
      updateQueryStateTail k v sp opts = spDelete sp k := by
  by_cases hv : v = ""
  · by_cases hf : shouldFallback opts = true
    · exact Or.inl ⟨opts.defaultValue.getD "",
        by simp [updateQueryStateTail, hv, hf]⟩
    · have hr := shouldRemove_of_not_shouldFallback opts
        (Bool.eq_false_iff.mpr hf)
      exact Or.inr (by simp [updateQueryStateTail, hv, hf, hr])
  · exact Or.inl ⟨v, by simp [updateQueryStateTail, hv]⟩

theorem updateQueryState_shape2 (k v : String) (sp : SearchParams)
    (o : Option UseQueryStateOptions) :
    (∃ w, updateQueryState k v sp o = spSet sp k w) ∨
      updateQueryState k v sp o = spDelete sp k := by
  cases o with
  | none =>
    by_cases hv : v = ""
    · exact Or.inr (by simp [updateQueryState, hv])
    · exact Or.inl ⟨v, by simp [updateQueryState, hv]⟩
  | some opts =>
    cases hs : opts.schema with
    | none =>
      rw [updateQueryState_tail_eq k v sp opts hs]
      exact updateQueryStateTail_shape2 k v sp opts
    | some S =>
      cases hd : S v with
      | some data =>
        exact Or.inl ⟨data, updateQueryState_schema_ok k v sp opts S data hs hd⟩
      | none =>
        rw [updateQueryState_schema_fail k v sp opts S hs hd]
        by_cases hf : shouldFallback opts = true
        · exact Or.inl ⟨opts.defaultValue.getD "", by simp [hf]⟩
        · have hr := shouldRemove_of_not_shouldFallback opts
            (Bool.eq_false_iff.mpr hf)
          rw [if_neg hf, if_pos hr]
          exact Or.inr rfl

/-! ## Claim theorems -/

/-- C1 counterexample: in the single-key hook, a reconciliation pass that
finds the configured default already present emits no correction and leaves
the Mount State `false`, refuting the claim that after one completed pass
the Mount State is always `true`. -/
theorem mountState_counterexample :
    (useQueryStringEffect "k" [("k", "a")] (some optsDefaultA) false).1 =
      false := by decide

/-- C1 (amended): after one pass of the multi-key effect the Mount State is
always `true`; in the single-key effect it becomes `true` exactly when a
present, non-empty configuration is supplied and the pass emits a
correction, and is otherwise left unchanged (so it can stay `false` after a
completed pass). -/
theorem mountState_amended (key : String) (sp : SearchParams)
    (options : Option UseQueryStateOptions) (m : Bool) (keys : List String)
    (moptions : String → Option UseQueryStateOptions) :
    (useQueryStringsEffect keys sp moptions m).1 = true ∧
    (useQueryStringEffect key sp options m).1 =
      (m || (optionsActive options &&
        !(useQueryStringEffect key sp options m).2.isEmpty)) := by
  refine ⟨rfl, ?_⟩
  cases options with
  | none =>
    by_cases hc : (spHas sp key && !optTruthy (spGet sp key)) = true
    · simp [useQueryStringEffect, optionsActive, hc]
    · simp [useQueryStringEffect, optionsActive, hc]
  | some opts =>
    by_cases he : opts.isEmpty = true
    · by_cases hc : (spHas sp key && !optTruthy (spGet sp key)) = true
      · simp [useQueryStringEffect, optionsActive, he, hc]
      · simp [useQueryStringEffect, optionsActive, he, hc]
    · by_cases hc : ((!m && optTruthy opts.defaultValue &&
            spGet sp key != opts.defaultValue) ||
          (!m && !optTruthy opts.defaultValue && opts.schema.isSome) ||
          (spHas sp key && !optTruthy (spGet sp key)) ||
          (!spHas sp key && optTruthy opts.defaultValue)) = true
      · simp [useQueryStringEffect, optionsActive, he, hc]
      · simp [useQueryStringEffect, optionsActive, he, hc]

/-- C2: when a configured schema rejects the candidate value, the update
policy resolves the entry deterministically and without raising (the
embedding is a total function): it sets the key to the configured default
when `onParseError` resolves to fallback and a non-empty default is
configured, and deletes the key when `onParseError` is `remove` or no
default is configured. -/
theorem schemaFailure_policy (k v : String) (sp : SearchParams)
    (opts : UseQueryStateOptions) (S : String → Option String)
    (hS : opts.schema = some S) (hfail : S v = none) :
    (∀ d, opts.onParseError.getD .fallback = .fallback →
      opts.defaultValue = some d → d ≠ "" →
      updateQueryState k v sp (some opts) = spSet sp k d) ∧
    ((opts.onParseError.getD .fallback = .remove ∨
        opts.defaultValue = none) →
      updateQueryState k v sp (some opts) = spDelete sp k) := by
  rw [updateQueryState_schema_fail k v sp opts S hS hfail]
  constructor
  · intro d hpe hd hne
    have hf : shouldFallback opts = true := by
      simp [shouldFallback, hpe, hd, optTruthy, hne]
    rw [if_pos hf, hd]
    rfl
  · intro hcase
    have hf : shouldFallback opts = false := by
      rcases hcase with hpe | hd
      · simp [shouldFallback, hpe]
      · simp [shouldFallback, hd, optTruthy]
    have hr := shouldRemove_of_not_shouldFallback opts hf
    rw [if_neg (by simp [hf]), if_pos hr]

/-- C2 witness: concrete fallback and remove resolutions of a schema
failure. -/
theorem schemaFailure_policy_witness :
    updateQueryState "k" "x" [] (some optsSchemaReject) = spSet [] "k" "d" ∧
    updateQueryState "k" "x" [] (some optsSchemaRejectRemove) =
      spDelete [] "k" := by
  constructor
  · exact (schemaFailure_policy "k" "x" [] optsSchemaReject schemaRejectAll
      rfl rfl).1 "d" rfl rfl (by decide)
  · exact (schemaFailure_policy "k" "x" [] optsSchemaRejectRemove
      schemaRejectAll rfl rfl).2 (Or.inl rfl)

/-- C3 counterexample: key `"k"` is configured with `defaultValue = "1"`,
no schema, and `onParseError = "remove"`; it is absent from the snapshot,
the first reconciliation pass does emit a correction for it, but the
resulting snapshot does not map it to `"1"` — the correction resolves to
removal, refuting the claim as stated. -/
theorem defaultMaterialization_counterexample :
    getSearchParamsUpdates ["k"] [] optsFunD1Remove false = [("k", "")] ∧
    spGet (reconcilePass ["k"] optsFunD1Remove false []) "k" ≠
      some "1" := by
  constructor
  · decide
  · decide

/-- C3 (amended): for every key configured with a non-empty
`defaultValue = D` whose `onParseError` resolves to fallback and whose
schema (if any) rejects the empty string, if the key has no value in the
current snapshot then the first reconciliation pass emits a correction for
it and the resulting snapshot maps the key to `D`. -/
theorem defaultMaterialization_amended (keys : List String)
    (sp : SearchParams) (options : String → Option UseQueryStateOptions)
    (k D : String) (opts : UseQueryStateOptions)
    (hnd : keys.Nodup) (hk : k ∈ keys) (ho : options k = some opts)
    (hd : opts.defaultValue = some D) (hD : D ≠ "")
    (hpe : opts.onParseError.getD .fallback = .fallback)
    (hs : ∀ S, opts.schema = some S → S "" = none)
    (habs : spHas sp k = false) :
    (k, "") ∈ getSearchParamsUpdates keys sp options false ∧
    spGet (reconcilePass keys options false sp) k = some D := by
  have hgn : spGet sp k = none := by
    cases hsp : spGet sp k with
    | none => rfl
    | some w =>
      rw [spHas_eq_isSome, hsp] at habs
      exact absurd habs (by simp)
  have hne : opts.isEmpty = false := by
    simp [UseQueryStateOptions.isEmpty, hd]
  have hcu : keyUpdate sp false k (options k) = some (k, "") := by
    rw [ho]
    simp [keyUpdate, hne, habs, hgn, hd, optTruthy, hD]
  have hsf : shouldFallback opts = true := by
    simp [shouldFallback, hpe, hd, optTruthy, hD]
  have hout : updateOutcome "" (options k) = some D := by
    rw [ho]
    cases hsch : opts.schema with
    | none =>
      rw [updateOutcome_schema_none "" opts hsch, updateOutcomeTail,
        if_pos (by simp [hsf]), hd]
      rfl
    | some S =>
      rw [updateOutcome_schema_fail "" opts S hsch (hs S hsch),
        if_pos hsf, hd]
      rfl
  obtain ⟨l1, l2, he, hl2⟩ :=
    updates_decompose keys sp options false k "" hnd hk hcu
  refine ⟨mem_updates keys sp options false k "" hk hcu, ?_⟩
  unfold reconcilePass
  rw [he, spGet_batch_last l1 l2 k "" sp options hl2, hout]

/-- C3 witness: a key with default `"1"` and fallback policy is
materialized by the first pass. -/
theorem defaultMaterialization_amended_witness :
    ("k", "") ∈ getSearchParamsUpdates ["k"] [] optsFunDefaultOne false ∧
    spGet (reconcilePass ["k"] optsFunDefaultOne false []) "k" =
      some "1" :=
  defaultMaterialization_amended ["k"] [] optsFunDefaultOne "k" "1"
    optsDefaultOne (by decide) (by decide) rfl rfl (by decide) rfl
    (fun S hS => by simp [optsDefaultOne] at hS) rfl

/-- C4: when the configured schema accepts the candidate value with
(possibly transformed) output `V`, the update policy sets the key to `V`
— not the raw value — regardless of default, error policy, and the
empty-value rules. -/
theorem schemaSuccess_precedence (k v V : String) (sp : SearchParams)
    (opts : UseQueryStateOptions) (S : String → Option String)
    (hS : opts.schema = some S) (hok : S v = some V) :
    updateQueryState k v sp (some opts) = spSet sp k V :=
  updateQueryState_schema_ok k v sp opts S V hS hok

/-- C4 witness: a transforming schema wins over a configured default and a
`remove` policy, and stores the transformed string. -/
theorem schemaSuccess_precedence_witness :
    updateQueryState "k" "ok" [] (some optsSchemaBang) =
      spSet [] "k" "ok!" :=
  schemaSuccess_precedence "k" "ok" "ok!" [] optsSchemaBang schemaBang rfl
    (by decide)

/-- C5: batch atomicity of the multi-key effect. Whenever two distinct
tracked keys both need correction in the same pass, exactly one navigation
replace is issued, and the snapshot it carries holds, for each of the two
keys, exactly the value the single-key update policy produces for that
key's correction. -/
theorem batchAtomicity (keys : List String) (sp : SearchParams)
    (options : String → Option UseQueryStateOptions) (m : Bool)
    (a b va vb : String) (hnd : keys.Nodup) (hab : a ≠ b)
    (ha : (a, va) ∈ getSearchParamsUpdates keys sp options m)
    (hb : (b, vb) ∈ getSearchParamsUpdates keys sp options m) :
    (useQueryStringsEffect keys sp options m).2.length = 1 ∧
    ∀ r ∈ (useQueryStringsEffect keys sp options m).2,
      spGet r a = spGet (createSearchParams (a, va) sp (options a)) a ∧
      spGet r b = spGet (createSearchParams (b, vb) sp (options b)) b := by
  have hanz : getSearchParamsUpdates keys sp options m ≠ [] := by
    intro hnil
    rw [hnil] at ha
    cases ha
  have hlen : 0 < (getSearchParamsUpdates keys sp options m).length :=
    List.length_pos.mpr hanz
  have hlz : ¬((getSearchParamsUpdates keys sp options m).length == 0) =
      true := by
    simp [Nat.pos_iff_ne_zero.mp hlen]
  have heff : (useQueryStringsEffect keys sp options m).2 =
      [createSearchParamsWithMany (getSearchParamsUpdates keys sp options m)
        sp options] := by
    simp only [useQueryStringsEffect, updateSearchParams]
    rw [if_pos hlen, if_neg hlz]
  obtain ⟨hamem, hka⟩ := mem_updates_inv keys sp options m (a, va) ha
  obtain ⟨hbmem, hkb⟩ := mem_updates_inv keys sp options m (b, vb) hb
  refine ⟨by rw [heff]; rfl, ?_⟩
  intro r hr
  rw [heff, List.mem_singleton] at hr
  subst hr
  constructor
  · obtain ⟨l1, l2, he, hl2⟩ :=
      updates_decompose keys sp options m a va hnd hamem hka
    rw [he, spGet_batch_last l1 l2 a va sp options hl2]
    exact (spGet_updateQueryState_self a va sp (options a)).symm
  · obtain ⟨l1, l2, he, hl2⟩ :=
      updates_decompose keys sp options m b vb hnd hbmem hkb
    rw [he, spGet_batch_last l1 l2 b vb sp options hl2]
    exact (spGet_updateQueryState_self b vb sp (options b)).symm

/-- C5 witness: keys `"a"` and `"b"` both present with empty values are
corrected by a single replace call. -/
theorem batchAtomicity_witness :
    (useQueryStringsEffect ["a", "b"] [("a", ""), ("b", "")] optsFunNone
      false).2.length = 1 ∧
    ∀ r ∈ (useQueryStringsEffect ["a", "b"] [("a", ""), ("b", "")]
        optsFunNone false).2,
      spGet r "a" =
        spGet (createSearchParams ("a", "") [("a", ""), ("b", "")]
          (optsFunNone "a")) "a" ∧
      spGet r "b" =
        spGet (createSearchParams ("b", "") [("a", ""), ("b", "")]
          (optsFunNone "b")) "b" :=
  batchAtomicity ["a", "b"] [("a", ""), ("b", "")] optsFunNone false
    "a" "b" "" "" (by decide) (by decide) (by decide) (by decide)

/-- C6 counterexample: with a schema that maps `"x"` to the empty string,
the first pass rewrites `k=x` to `k=` (present but empty); the second pass
still emits a correction for the present-but-empty key and that correction
resolves to removal, so the second application changes the snapshot again —
the claimed fixed point fails. -/
theorem reconcileFixedPoint_counterexample :
    getSearchParamsUpdates ["k"]
        (reconcilePass ["k"] optsFunEmptyOut false [("k", "x")])
        optsFunEmptyOut true ≠ [] ∧
    reconcilePass ["k"] optsFunEmptyOut true
        (reconcilePass ["k"] optsFunEmptyOut false [("k", "x")]) ≠
      reconcilePass ["k"] optsFunEmptyOut false [("k", "x")] := by
  constructor
  · decide
  · decide

/-- C6 (amended): provided no tracked key combines a non-empty
`defaultValue` with `onParseError = "remove"` and no configured schema
succeeds with the empty string, one Reconciler + Params Builder pass
reaches a fixed point: a second pass (with Mount State initialized) emits
no corrections, so applying the pass twice yields the same snapshot as
applying it once. -/
theorem reconcileFixedPoint_amended (keys : List String)
    (sp : SearchParams) (options : String → Option UseQueryStateOptions)
    (hnd : keys.Nodup) (hg : ∀ k ∈ keys, goodConfig (options k)) :
    getSearchParamsUpdates keys (reconcilePass keys options false sp)
      options true = [] ∧
    reconcilePass keys options true (reconcilePass keys options false sp) =
      reconcilePass keys options false sp := by
  have h1 := reconcile_second_updates_nil keys sp options hnd hg
  refine ⟨h1, ?_⟩
  have e : ∀ X, reconcilePass keys options true X =
      createSearchParamsWithMany (getSearchParamsUpdates keys X options true)
        X options := fun X => rfl
  rw [e, h1]
  rfl

/-- C6 witness: a key with a plain fallback default reaches a fixed point
after one pass. -/
theorem reconcileFixedPoint_amended_witness :
    getSearchParamsUpdates ["k"]
        (reconcilePass ["k"] optsFunDefaultOne false []) optsFunDefaultOne
        true = [] ∧
    reconcilePass ["k"] optsFunDefaultOne true
        (reconcilePass ["k"] optsFunDefaultOne false []) =
      reconcilePass ["k"] optsFunDefaultOne false [] :=
  reconcileFixedPoint_amended ["k"] [] optsFunDefaultOne (by decide)
    (fun k _ =>
      ⟨fun h => absurd h.2 (by decide),
        fun S v w hS _ => absurd hS (by simp [optsFunDefaultOne,
          optsDefaultOne])⟩)

/-- C7: a key with no configuration is passed through: the update policy
sets it when non-empty and deletes it when empty (never defaulted or
validated), and both the multi-key reconciler body and the single-key
effect emit a correction for it only when it is present with an empty
value, a correction that resolves to removal. -/
theorem noConfig_passThrough (k v : String) (sp : SearchParams) (m : Bool) :
    updateQueryState k v sp none =
      (if v != "" then spSet sp k v else spDelete sp k) ∧
    keyUpdate sp m k none =
      (if spHas sp k && !optTruthy (spGet sp k) then some (k, "")
       else none) ∧
    useQueryStringEffect k sp none m =
      (m, if spHas sp k && !optTruthy (spGet sp k) then [spDelete sp k]
          else []) := by
  refine ⟨rfl, rfl, ?_⟩
  by_cases hc : (spHas sp k && !optTruthy (spGet sp k)) = true
  · simp [useQueryStringEffect, hc, createSearchParams, updateQueryState]
  · simp [useQueryStringEffect, hc]

/-- C8: the Params Builder is pure (the embedding acts on an immutable
snapshot and returns a new one) and applies the update policy sequentially
in caller order: a key untouched by the batch keeps its value from the
base snapshot, and for a key updated by the batch the final value is the
one produced by the last update for that key applied to the base snapshot
(last-write-wins). -/
theorem paramsBuilder_lastWrite (updates l1 l2 : List (String × String))
    (sp : SearchParams) (options : String → Option UseQueryStateOptions)
    (k v : String) :
    ((∀ p ∈ updates, p.1 ≠ k) →
      spGet (createSearchParamsWithMany updates sp options) k =
        spGet sp k) ∧
    (updates = l1 ++ (k, v) :: l2 → (∀ p ∈ l2, p.1 ≠ k) →
      spGet (createSearchParamsWithMany updates sp options) k =
        spGet (createSearchParams (k, v) sp (options k)) k) := by
  constructor
  · exact spGet_batch_frame updates sp options k
  · intro he h2
    rw [he, spGet_batch_last l1 l2 k v sp options h2]
    exact (spGet_updateQueryState_self k v sp (options k)).symm

/-- C8 witness: a frame instance and a last-write-wins instance on
concrete batches. -/
theorem paramsBuilder_lastWrite_witness :
    spGet (createSearchParamsWithMany [("j", "2")] [("k", "0")] optsFunNone)
        "k" = spGet [("k", "0")] "k" ∧
    spGet (createSearchParamsWithMany [("k", "1"), ("j", "2"), ("k", "3")]
        [] optsFunNone) "k" =
      spGet (createSearchParams ("k", "3") [] (optsFunNone "k")) "k" := by
  constructor
  · exact (paramsBuilder_lastWrite [("j", "2")] [] [] [("k", "0")]
      optsFunNone "k" "x").1 (by decide)
  · exact (paramsBuilder_lastWrite [("k", "1"), ("j", "2"), ("k", "3")]
      [("k", "1"), ("j", "2")] [] [] optsFunNone "k" "3").2 rfl (by simp)

/-- C9: the update policy is total. `shouldFallback` and `shouldRemove`
are never both false; on a schema failure the policy always resolves to
set-default or delete (the fall-through to the no-schema rules is
unreachable from a schema failure); and on every input the policy resolves
to a defined action — a set or a delete. -/
theorem updatePolicy_total (k v : String) (sp : SearchParams)
    (o : UseQueryStateOptions) (o1 : Option UseQueryStateOptions)
    (S : String → Option String) :
    (shouldFallback o || shouldRemove o) = true ∧
    (o.schema = some S → S v = none →
      updateQueryState k v sp (some o) =
        (if shouldFallback o then spSet sp k (o.defaultValue.getD "")
         else spDelete sp k)) ∧
    ((∃ w, updateQueryState k v sp o1 = spSet sp k w) ∨
      updateQueryState k v sp o1 = spDelete sp k) := by
  refine ⟨?_, ?_, updateQueryState_shape2 k v sp o1⟩
  · by_cases hf : shouldFallback o = true
    · simp [hf]
    · simp [shouldRemove_of_not_shouldFallback o (Bool.eq_false_iff.mpr hf)]
  · intro hS hfail
    rw [updateQueryState_schema_fail k v sp o S hS hfail]
    by_cases hf : shouldFallback o = true
    · rw [if_pos hf, if_pos hf]
    · have hr := shouldRemove_of_not_shouldFallback o
        (Bool.eq_false_iff.mpr hf)
      rw [if_neg hf, if_neg hf, if_pos hr]

/-- C9 witness: concrete totality facts for a schema-failure
configuration. -/
theorem updatePolicy_total_witness :
    (shouldFallback optsSchemaReject || shouldRemove optsSchemaReject) =
        true ∧
    updateQueryState "k" "x" [] (some optsSchemaReject) =
      spSet [] "k" "d" := by
  have h := updatePolicy_total "k" "x" [] optsSchemaReject
    (some optsSchemaReject) schemaRejectAll
  refine ⟨h.1, ?_⟩
  rw [h.2.1 rfl rfl, if_pos (by decide)]
  rfl

/-- C10: a configured `defaultValue = ""` behaves, for the update policy
and the reconciler, exactly as if no default were configured: truthiness
makes `shouldFallback` false and `shouldRemove` true, and both
`updateQueryState` and the reconciler body are unchanged when the
empty-string default is dropped from the configuration. -/
theorem emptyDefault_actsAsNone (k v : String) (sp : SearchParams)
    (m : Bool) (opts : UseQueryStateOptions)
    (h : opts.defaultValue = some "") :
    shouldFallback opts = false ∧
    shouldRemove opts = true ∧
    updateQueryState k v sp (some opts) =
      updateQueryState k v sp (some { opts with defaultValue := none }) ∧
    keyUpdate sp m k (some opts) =
      keyUpdate sp m k (some { opts with defaultValue := none }) := by
  have hopts : ({ opts with defaultValue := none } :
      UseQueryStateOptions).schema = opts.schema := rfl
  have hsf : shouldFallback opts = false := by
    simp [shouldFallback, h, optTruthy]
  have hsf2 : shouldFallback { opts with defaultValue := none } = false := by
    simp [shouldFallback, optTruthy]
  have hsr : shouldRemove opts = true := by
    simp [shouldRemove, h, optTruthy]
  have hsr2 : shouldRemove { opts with defaultValue := none } = true := by
    simp [shouldRemove, optTruthy]
  have htail : ∀ v1, updateQueryStateTail k v1 sp opts =
      updateQueryStateTail k v1 sp { opts with defaultValue := none } := by
    intro v1
    by_cases hv : v1 = ""
    · simp [updateQueryStateTail, hv, hsf, hsf2, hsr, hsr2]
    · simp [updateQueryStateTail, hv]
  have hne : opts.isEmpty = false := by
    simp [UseQueryStateOptions.isEmpty, h]
  refine ⟨hsf, hsr, ?_, ?_⟩
  · cases hs : opts.schema with
    | none =>
      rw [updateQueryState_tail_eq k v sp opts hs,
        updateQueryState_tail_eq k v sp _ rfl]
      rw [hs] at htail
      exact htail v
    | some S =>
      cases hd : S v with
      | some data =>
        rw [updateQueryState_schema_ok k v sp opts S data hs hd]
        exact (updateQueryState_schema_ok k v sp
          { defaultValue := none, schema := some S,
            onParseError := opts.onParseError } S data rfl hd).symm
      | none =>
        rw [updateQueryState_schema_fail k v sp opts S hs hd,
          updateQueryState_schema_fail k v sp
            { defaultValue := none, schema := some S,
              onParseError := opts.onParseError } S rfl hd]
        have hf2 : shouldFallback
            { defaultValue := none, schema := some S,
              onParseError := opts.onParseError } = false := by
          simp [shouldFallback, optTruthy]
        have hr2 : shouldRemove
            { defaultValue := none, schema := some S,
              onParseError := opts.onParseError } = true := by
          simp [shouldRemove, optTruthy]
        rw [if_neg (by simp [hsf]), if_pos hsr, if_neg (by simp [hf2]),
          if_pos hr2]
  · simp only [keyUpdate]
    rw [if_neg (by simp [hne])]
    by_cases he2 : ({ opts with defaultValue := none } :
        UseQueryStateOptions).isEmpty = true
    · rw [if_pos he2]
      have hii : opts.schema.isNone = true ∧ opts.onParseError.isNone =
          true := by
        simpa [UseQueryStateOptions.isEmpty] using he2
      have hsch : opts.schema.isSome = false := by
        cases hq : opts.schema with
        | none => rfl
        | some S => rw [hq] at hii; exact absurd hii.1 (by simp)
      cases hv : spGet sp k with
      | none =>
        have hhas : spHas sp k = false := by rw [spHas_eq_isSome, hv]; rfl
        simp [h, hhas, hv, optTruthy, hsch]
      | some s =>
        have hhas : spHas sp k = true := by rw [spHas_eq_isSome, hv]; rfl
        by_cases hs0 : s = ""
        · simp [h, hhas, hv, hs0, optTruthy, hsch]
        · simp [h, hhas, hv, hs0, optTruthy, hsch]
    · rw [if_neg he2]
      simp [h, optTruthy]

/-- C10 witness: a concrete present-but-empty key under an empty-string
default. -/
theorem emptyDefault_actsAsNone_witness :
    shouldFallback optsEmptyDefault = false ∧
    shouldRemove optsEmptyDefault = true ∧
    updateQueryState "k" "" [("k", "")] (some optsEmptyDefault) =
      updateQueryState "k" "" [("k", "")]
        (some { optsEmptyDefault with defaultValue := none }) ∧
    keyUpdate [("k", "")] false "k" (some optsEmptyDefault) =
      keyUpdate [("k", "")] false "k"
        (some { optsEmptyDefault with defaultValue := none }) :=
  emptyDefault_actsAsNone "k" "" [("k", "")] false optsEmptyDefault rfl

end I11Registry

